import Mathlib

/-
Shallow embedding of the three Redis-backed entity stores of the
CS-T680 voting application:
  * Voter-Container/db/voters.go          (voters store, nested VoteHistory editor)
  * polls db module (src/unnamed/part_000, package db)  (polls store)
  * Voting-Application/votes-api/db/votes.go            (votes store)

The three Go services share one Redis instance.  Every key the code ever
reads or writes has the shape  <ns><decimal-id>  with ns one of
"voters:", "polls:", "votes:" (redisKeyFromId / fmt.Sprintf("%s%d", ...)).
Decimal representations contain no colon, so these strings are in
bijection with the pair (ns, id); we model a Redis key as that pair.
The shared keyspace is an association list from keys to stored JSON
documents; a stored document is one of the three record shapes.

Go's json.Unmarshal into a freshly zeroed struct succeeds on any of the
three document shapes (unknown fields are ignored, absent fields keep
their zero value), so getItemFromRedis fails exactly when the key is
absent; when the stored document has a different shape than the target
struct, only the fields with matching names are carried over.  The
decode* functions below reproduce that field-name matching exactly.

time.Time values (VoteDate) are never inspected by the code; we model
them as an opaque Nat.  Go uint ids carry no arithmetic here, so Nat.
-/

namespace VotingApp

/-- VoterPoll mirrors `voterPoll` of voters.go: one vote-history entry. -/
structure VoterPoll where
  pollID : Nat
  voteDate : Nat
deriving DecidableEq, Repr, Inhabited

/-- Voter mirrors `Voter` of voters.go. -/
structure Voter where
  voterID : Nat
  firstName : String
  lastName : String
  voteHistory : List VoterPoll
deriving DecidableEq, Repr, Inhabited

/-- PollOption mirrors `pollOption` of the polls db module. -/
structure PollOption where
  pollOptionID : Nat
  pollOptionText : String
deriving DecidableEq, Repr, Inhabited

/-- Poll mirrors `Poll` of the polls db module. -/
structure Poll where
  pollID : Nat
  pollTitle : String
  pollQuestion : String
  pollOptions : List PollOption
  links : List String
deriving DecidableEq, Repr, Inhabited

/-- Vote mirrors `Vote` of votes.go. -/
structure Vote where
  voteID : Nat
  voterID : Nat
  pollID : Nat
  voteValue : Nat
  links : List String
deriving DecidableEq, Repr, Inhabited

/-- A JSON document stored in the shared Redis instance is one of the
three record shapes. -/
inductive RVal where
  | voter : Voter → RVal
  | poll : Poll → RVal
  | vote : Vote → RVal
deriving DecidableEq, Repr, Inhabited

/-- A Redis key `<ns><decimal-id>`, modelled as the pair (ns, id);
see the header comment for the bijection argument. -/
structure RKey where
  ns : String
  id : Nat
deriving DecidableEq, Repr, Inhabited

/-- The shared Redis keyspace: an association list from keys to stored
documents (first binding wins; operations keep keys unique). -/
abbrev Store := List (RKey × RVal)

/-- RedisKeyPrefix of voters.go. -/
def votersNS : String := "voters:"

/-- RedisKeyPrefix of the polls db module. -/
def pollsNS : String := "polls:"

/-- RedisKeyPrefix of votes.go. -/
def votesNS : String := "votes:"

/-- RedisNilError, the error go-redis returns for an absent key. -/
def RedisNilError : String := "redis: nil"

/-- redisKeyFromId: `fmt.Sprintf("%s%d", ns, id)`. -/
def redisKeyFromId (ns : String) (id : Nat) : RKey := ⟨ns, id⟩

/-- Redis GET / JSONGet of a single key. -/
def lookupKey : Store → RKey → Option RVal
  | [], _ => none
  | (k, v) :: rest, key => if k = key then some v else lookupKey rest key

/-- Redis JSONSet of the whole document at a key: overwrite if the key
is present, otherwise add the binding. -/
def setKey : Store → RKey → RVal → Store
  | [], key, val => [(key, val)]
  | (k, v) :: rest, key, val =>
    if k = key then (key, val) :: rest else (k, v) :: setKey rest key val

/-- Redis DEL of a single key: the remaining store and the number of
bindings removed (0 or 1 on a duplicate-free store). -/
def delKey : Store → RKey → Nat × Store
  | [], _ => (0, [])
  | (k, v) :: rest, key =>
    let r := delKey rest key
    if k = key then (r.1 + 1, r.2) else (r.1, (k, v) :: r.2)

/-- The error Redis returns for a DEL command sent with no key
arguments. -/
def RedisDelArityError : String :=
  "ERR wrong number of arguments for \x27del\x27 command"

/-- Sequential removal of a list of keys: each key is removed in order
and the removal counts are summed, as Redis does for a non-empty DEL. -/
def delKeysRun : Store → List RKey → Nat × Store
  | db, [] => (0, db)
  | db, k :: ks =>
    let r := delKeysRun (delKey db k).2 ks
    ((delKey db k).1 + r.1, r.2)

/-- Redis DEL of a list of keys (`Del(ctx, ks...)`): go-redis v8 builds
the command as ["del", keys...] with no empty-list guard, so an empty
key list sends an argument-less DEL, which Redis rejects with its arity
error and nothing is removed; a non-empty key list removes the keys and
returns the count. -/
def delKeys (db : Store) (ks : List RKey) : Except String Nat × Store :=
  match ks with
  | [] => (.error RedisDelArityError, db)
  | _ :: _ =>
    let r := delKeysRun db ks
    (.ok r.1, r.2)

/-- Redis KEYS `<ns>*`: every key of the namespace, in store order. -/
def keysMatching (db : Store) (ns : String) : List RKey :=
  (db.map Prod.fst).filter (fun k => k.ns = ns)

/-- Result of `json.Unmarshal(doc, &Voter{})`: identity on a Voter
document; on a Poll document no field name matches (zero Voter); on a
Vote document only VoterID matches. -/
def decodeVoter : RVal → Voter
  | .voter v => v
  | .poll _ => { voterID := 0, firstName := "", lastName := "", voteHistory := [] }
  | .vote vt => { voterID := vt.voterID, firstName := "", lastName := "", voteHistory := [] }

/-- Result of `json.Unmarshal(doc, &Poll{})`: identity on a Poll
document; on a Voter document no field name matches; on a Vote document
PollID and Links match. -/
def decodePoll : RVal → Poll
  | .poll p => p
  | .voter _ => { pollID := 0, pollTitle := "", pollQuestion := "", pollOptions := [], links := [] }
  | .vote vt => { pollID := vt.pollID, pollTitle := "", pollQuestion := "", pollOptions := [], links := vt.links }

/-- Result of `json.Unmarshal(doc, &Vote{})`: identity on a Vote
document; on a Voter document only VoterID matches; on a Poll document
PollID and Links match. -/
def decodeVote : RVal → Vote
  | .vote vt => vt
  | .voter v => { voteID := 0, voterID := v.voterID, pollID := 0, voteValue := 0, links := [] }
  | .poll p => { voteID := 0, voterID := 0, pollID := p.pollID, voteValue := 0, links := p.links }

/-
Store operations.  Each Go method runs against the shared Redis
instance; we pass the keyspace explicitly and return the (possibly
unchanged) keyspace together with the Go error value, modelled as
`Except String` carrying the exact `errors.New` message.  JSONSet
against a reachable Redis never fails, so the `err` branches after a
successful existence check are not represented.
-/

/-- AddVoter of voters.go: reject when the key is already present,
otherwise JSONSet the voter at voters:<VoterID>. -/
def AddVoter (db : Store) (voter : Voter) : Except String Unit × Store :=
  let redisKey := redisKeyFromId votersNS voter.voterID
  match lookupKey db redisKey with
  | some _ => (.error "voter already exists", db)
  | none => (.ok (), setKey db redisKey (.voter voter))

/-- DeleteVoter of voters.go: DEL the key, error when nothing was
removed. -/
def DeleteVoter (db : Store) (id : Nat) : Except String Unit × Store :=
  let r := delKey db (redisKeyFromId votersNS id)
  if r.1 = 0 then (.error "voter does not exist", r.2) else (.ok (), r.2)

/-- DeleteAllVoters of voters.go: KEYS voters:* then DEL of that list.
A DEL error — in particular the arity error of the argument-less DEL
that go-redis sends when the scan matched zero keys — is returned
as-is (`if err != nil { return err }`); otherwise the call errs when
the removal count differs from the number of keys matched.  The two
store arguments are the backend state at the KEYS call and at the DEL
call; they differ only when another client mutates the store between
the two unsynchronized steps (spec section 5), and coincide in a
sequential run. -/
def DeleteAllVoters (scanDb db : Store) : Except String Unit × Store :=
  let ks := keysMatching scanDb votersNS
  match delKeys db ks with
  | (.error e, db2) => (.error e, db2)
  | (.ok n, db2) =>
    if n ≠ ks.length then (.error "one or more voters could not be deleted", db2)
    else (.ok (), db2)

/-- UpdateVoter of voters.go: error when the key is absent, otherwise
overwrite the whole document. -/
def UpdateVoter (db : Store) (voter : Voter) : Except String Unit × Store :=
  let redisKey := redisKeyFromId votersNS voter.voterID
  match lookupKey db redisKey with
  | none => (.error "voter does not exist", db)
  | some _ => (.ok (), setKey db redisKey (.voter voter))

/-- GetVoter of voters.go: read-only; error when the key is absent. -/
def GetVoter (db : Store) (id : Nat) : Except String Voter :=
  match lookupKey db (redisKeyFromId votersNS id) with
  | none => .error "voter does not exist"
  | some rv => .ok (decodeVoter rv)

/-- The key-scan loop shared by the three GetAll functions: look every
scanned key up and decode it, propagating the redis error of a key that
vanished between the scan and the read. -/
def getItemsWith (dec : RVal → α) (db : Store) : List RKey → Except String (List α)
  | [] => .ok []
  | k :: ks =>
    match lookupKey db k with
    | none => .error RedisNilError
    | some rv =>
      match getItemsWith dec db ks with
      | .error e => .error e
      | .ok tl => .ok (dec rv :: tl)

/-- GetAllVoters of voters.go: KEYS voters:* then a read per key; no
sentinel is appended for the voters namespace. -/
def GetAllVoters (db : Store) : Except String (List Voter) :=
  getItemsWith decodeVoter db (keysMatching db votersNS)

/-- GetVoterPolls of voters.go: the whole VoteHistory of one voter. -/
def GetVoterPolls (db : Store) (id : Nat) : Except String (List VoterPoll) :=
  match lookupKey db (redisKeyFromId votersNS id) with
  | none => .error "voter does not exist"
  | some rv => .ok (decodeVoter rv).voteHistory

/-- The linear scan `for i, poll := range history` with break at the
first entry whose PollID matches. -/
def findPollIdx (h : List VoterPoll) (pid : Nat) : Option Nat :=
  match h with
  | [] => none
  | p :: rest =>
    if p.pollID = pid then some 0 else (findPollIdx rest pid).map (· + 1)

/-- GetVoterPoll of voters.go: first history entry whose PollID matches,
error when the voter is absent or no entry matches. -/
def GetVoterPoll (db : Store) (voterId pollId : Nat) : Except String VoterPoll :=
  match lookupKey db (redisKeyFromId votersNS voterId) with
  | none => .error "voter does not exist"
  | some rv =>
    let voter := decodeVoter rv
    match findPollIdx voter.voteHistory pollId with
    | some i => .ok (voter.voteHistory.getD i default)
    | none => .error "poll not found for given voter"

/-- AddVoterPoll of voters.go.  After the voter-existence check the code
reads `requestVoter.VoteHistory[0]` unconditionally; on an empty request
history that Go index access panics, which we model as `none`.  On the
success path the record is written back through UpdateVoter, whose
result the Go code discards. -/
def AddVoterPoll (db : Store) (voterId : Nat) (requestVoter : Voter) :
    Option (Except String Unit × Store) :=
  match lookupKey db (redisKeyFromId votersNS voterId) with
  | none => some (.error "voter does not exist", db)
  | some rv =>
    let voter := decodeVoter rv
    match requestVoter.voteHistory with
    | [] => none
    | requestPoll :: _ =>
      if (findPollIdx voter.voteHistory requestPoll.pollID).isSome then
        some (.error "poll already exists in voter", db)
      else
        some (.ok (),
          (UpdateVoter db
            { voter with voteHistory := voter.voteHistory ++ [requestPoll] }).2)

/-- The swap-with-last-and-truncate removal of DeleteVoterPoll:
`h[index] = h[len-1]; h = h[:len-1]`.  Only called with a valid index
into a nonempty list, so the default of getLastD is never read. -/
def swapRemove (h : List VoterPoll) (i : Nat) : List VoterPoll :=
  (h.set i (h.getLastD default)).dropLast

/-- DeleteVoterPoll of voters.go: find the entry by PollID, swap-remove
it and write the record back through UpdateVoter (result discarded). -/
def DeleteVoterPoll (db : Store) (voterId pollId : Nat) : Except String Unit × Store :=
  match lookupKey db (redisKeyFromId votersNS voterId) with
  | none => (.error "voter does not exist", db)
  | some rv =>
    let voter := decodeVoter rv
    match findPollIdx voter.voteHistory pollId with
    | none => (.error "poll does not exist in voter", db)
    | some index =>
      (.ok (),
        (UpdateVoter db
          { voter with voteHistory := swapRemove voter.voteHistory index }).2)

/-- UpdateVoterPoll of voters.go.  Reads `requestVoter.VoteHistory[0]`
unconditionally after the voter-existence check (none = Go panic, as in
AddVoterPoll), locates the stored entry with the same PollID and
overwrites it in place. -/
def UpdateVoterPoll (db : Store) (voterId : Nat) (requestVoter : Voter) :
    Option (Except String Unit × Store) :=
  match lookupKey db (redisKeyFromId votersNS voterId) with
  | none => some (.error "voter does not exist", db)
  | some rv =>
    let voter := decodeVoter rv
    match requestVoter.voteHistory with
    | [] => none
    | requestPoll :: _ =>
      match findPollIdx voter.voteHistory requestPoll.pollID with
      | none => some (.error "poll does not exist in voter", db)
      | some index =>
        some (.ok (),
          (UpdateVoter db
            { voter with voteHistory := voter.voteHistory.set index requestPoll }).2)

/-- The hardcoded hypermedia strings AddPoll/UpdatePoll attach. -/
def pollLinks : List String :=
  ["GET All Polls: 1090/polls/", "POST Poll: 1090/polls/:id",
   "DELETE All Polls: 1090/polls", "DELETE Poll: 1090/polls/:id",
   "GET All Votes: 1100/votes/", "POST Vote: 1100/votes/:id",
   "GET All Voters: 1080/voters/", "POST Voter: 1080/voters/:id"]

/-- The hardcoded hypermedia strings AddVote/UpdateVote attach. -/
def voteLinks : List String :=
  ["GET All Votes: 1100/votes/", "POST Vote: 1100/votes/:id",
   "DELETE All Votes: 1100/votes", "DELETE Vote: 1100/votes/:id",
   "GET All Voters: 1080/voters/", "POST Voter: 1080/voters/:id",
   "GET All Polls: 1090/Polls/", "POST Poll: 1090/polls/:id"]

/-- AddPoll of the polls db module: reject when the key is present,
otherwise overwrite Links with the hardcoded list and JSONSet. -/
def AddPoll (db : Store) (poll : Poll) : Except String Unit × Store :=
  let redisKey := redisKeyFromId pollsNS poll.pollID
  match lookupKey db redisKey with
  | some _ => (.error "poll already exists", db)
  | none => (.ok (), setKey db redisKey (.poll { poll with links := pollLinks }))

/-- DeletePoll of the polls db module. -/
def DeletePoll (db : Store) (id : Nat) : Except String Unit × Store :=
  let r := delKey db (redisKeyFromId pollsNS id)
  if r.1 = 0 then (.error "poll does not exist", r.2) else (.ok (), r.2)

/-- DeleteAllPolls of the polls db module; two snapshots and the same
DEL error propagation as in DeleteAllVoters. -/
def DeleteAllPolls (scanDb db : Store) : Except String Unit × Store :=
  let ks := keysMatching scanDb pollsNS
  match delKeys db ks with
  | (.error e, db2) => (.error e, db2)
  | (.ok n, db2) =>
    if n ≠ ks.length then (.error "one or more polls could not be deleted", db2)
    else (.ok (), db2)

/-- UpdatePoll of the polls db module: Links overwritten with the same
hardcoded list on every update. -/
def UpdatePoll (db : Store) (poll : Poll) : Except String Unit × Store :=
  let redisKey := redisKeyFromId pollsNS poll.pollID
  match lookupKey db redisKey with
  | none => (.error "poll does not exist", db)
  | some _ => (.ok (), setKey db redisKey (.poll { poll with links := pollLinks }))

/-- GetPoll of the polls db module. -/
def GetPoll (db : Store) (id : Nat) : Except String Poll :=
  match lookupKey db (redisKeyFromId pollsNS id) with
  | none => .error "poll does not exist"
  | some rv => .ok (decodePoll rv)

/-- The all-zero sentinel Poll GetAllPolls appends to an empty scan. -/
def sentinelPoll : Poll :=
  { pollID := 0, pollTitle := "", pollQuestion := "", pollOptions := [],
    links := pollLinks }

/-- GetAllPolls of the polls db module: scan-and-read, then append the
sentinel when fewer than one poll was collected. -/
def GetAllPolls (db : Store) : Except String (List Poll) :=
  match getItemsWith decodePoll db (keysMatching db pollsNS) with
  | .error e => .error e
  | .ok l => .ok (if l.length < 1 then l ++ [sentinelPoll] else l)

/-- AddVote of votes.go: reject a duplicate VoteID, then require the
keys voters:<VoterID> and polls:<PollID> to exist (in that order; the
reads decode into a Vote struct, but json.Unmarshal succeeds on any
document shape, so each check is pure key existence), then overwrite
Links with the hardcoded list and JSONSet. -/
def AddVote (db : Store) (vote : Vote) : Except String Unit × Store :=
  let redisKey := redisKeyFromId votesNS vote.voteID
  match lookupKey db redisKey with
  | some _ => (.error "vote already exists", db)
  | none =>
    match lookupKey db (redisKeyFromId votersNS vote.voterID) with
    | none => (.error "voter does not exists", db)
    | some _ =>
      match lookupKey db (redisKeyFromId pollsNS vote.pollID) with
      | none => (.error "poll does not exists", db)
      | some _ =>
        (.ok (), setKey db redisKey (.vote { vote with links := voteLinks }))

/-- DeleteVote of votes.go. -/
def DeleteVote (db : Store) (id : Nat) : Except String Unit × Store :=
  let r := delKey db (redisKeyFromId votesNS id)
  if r.1 = 0 then (.error "vote does not exist", r.2) else (.ok (), r.2)

/-- DeleteAllVotes of votes.go; two snapshots and the same DEL error
propagation as in DeleteAllVoters. -/
def DeleteAllVotes (scanDb db : Store) : Except String Unit × Store :=
  let ks := keysMatching scanDb votesNS
  match delKeys db ks with
  | (.error e, db2) => (.error e, db2)
  | (.ok n, db2) =>
    if n ≠ ks.length then (.error "one or more votes could not be deleted", db2)
    else (.ok (), db2)

/-- UpdateVote of votes.go: no referential re-check; Links overwritten
with the hardcoded list. -/
def UpdateVote (db : Store) (vote : Vote) : Except String Unit × Store :=
  let redisKey := redisKeyFromId votesNS vote.voteID
  match lookupKey db redisKey with
  | none => (.error "vote does not exist", db)
  | some _ => (.ok (), setKey db redisKey (.vote { vote with links := voteLinks }))

/-- GetVote of votes.go. -/
def GetVote (db : Store) (id : Nat) : Except String Vote :=
  match lookupKey db (redisKeyFromId votesNS id) with
  | none => .error "vote does not exist"
  | some rv => .ok (decodeVote rv)

/-- The all-zero sentinel Vote GetAllVotes appends to an empty scan. -/
def sentinelVote : Vote :=
  { voteID := 0, voterID := 0, pollID := 0, voteValue := 0, links := voteLinks }

/-- GetAllVotes of votes.go: scan-and-read, then append the sentinel
when fewer than one vote was collected. -/
def GetAllVotes (db : Store) : Except String (List Vote) :=
  match getItemsWith decodeVote db (keysMatching db votesNS) with
  | .error e => .error e
  | .ok l => .ok (if l.length < 1 then l ++ [sentinelVote] else l)

/-
Invariant vocabulary.
-/

/-- At most one VoteHistory entry per PollID within a single Voter. -/
def HistUnique (v : Voter) : Prop := (v.voteHistory.map VoterPoll.pollID).Nodup

instance (v : Voter) : Decidable (HistUnique v) := List.nodupDecidable _

/-- The per-document shape of the store invariant: a stored voter
document has a per-PollID-unique history; other documents carry no
history. -/
def valInv : RVal → Prop
  | .voter v => HistUnique v
  | .poll _ => True
  | .vote _ => True

instance : (rv : RVal) → Decidable (valInv rv)
  | .voter v => inferInstanceAs (Decidable (HistUnique v))
  | .poll _ => inferInstanceAs (Decidable True)
  | .vote _ => inferInstanceAs (Decidable True)

/-- Every stored voter document has a per-PollID-unique VoteHistory. -/
def StoreInv (db : Store) : Prop := ∀ e ∈ db, valInv e.2

instance (db : Store) : Decidable (StoreInv db) := List.decidableBAll _ db

/-- The records of one namespace in store order, as some GetAll returns
them: the decoded values of that namespace's bindings. -/
def nsRecords (dec : RVal → α) (db : Store) (ns : String) : List α :=
  db.filterMap fun e => if e.1.ns = ns then some (dec e.2) else none

instance {ε α : Type} [DecidableEq ε] [DecidableEq α] : DecidableEq (Except ε α) :=
  fun a b =>
    match a, b with
    | .error e, .error e' => decidable_of_iff (e = e') (by simp)
    | .error _, .ok _ => .isFalse fun h => nomatch h
    | .ok _, .error _ => .isFalse fun h => nomatch h
    | .ok a, .ok a' => decidable_of_iff (a = a') (by simp)

/-
Lemmas about the store primitives.
-/

theorem lookupKey_cons_self {k : RKey} {v : RVal} {rest : Store} :
    lookupKey ((k, v) :: rest) k = some v := by
  simp [lookupKey]

theorem lookupKey_cons_ne {k k' : RKey} {v : RVal} {rest : Store} (h : k' ≠ k) :
    lookupKey ((k, v) :: rest) k' = lookupKey rest k' := by
  simp [lookupKey, Ne.symm h]

theorem lookupKey_setKey_self (db : Store) (k : RKey) (v : RVal) :
    lookupKey (setKey db k v) k = some v := by
  induction db with
  | nil => simp [setKey, lookupKey]
  | cons e rest ih =>
    obtain ⟨k0, v0⟩ := e
    by_cases h0 : k0 = k
    · subst h0; simp [setKey, lookupKey]
    · simp [setKey, lookupKey, h0, ih]

theorem lookupKey_setKey_ne (db : Store) {k k' : RKey} (v : RVal) (h : k' ≠ k) :
    lookupKey (setKey db k v) k' = lookupKey db k' := by
  induction db with
  | nil => simp [setKey, lookupKey, Ne.symm h]
  | cons e rest ih =>
    obtain ⟨k0, v0⟩ := e
    by_cases h0 : k0 = k
    · subst h0
      simp [setKey, lookupKey, Ne.symm h]
    · by_cases h1 : k0 = k'
      · subst h1; simp [setKey, lookupKey, h0]
      · simp [setKey, lookupKey, h0, h1, ih]

theorem lookupKey_eq_none_iff {db : Store} {k : RKey} :
    lookupKey db k = none ↔ k ∉ db.map Prod.fst := by
  induction db with
  | nil => simp [lookupKey]
  | cons e rest ih =>
    obtain ⟨k0, v0⟩ := e
    by_cases h0 : k0 = k
    · subst h0; simp [lookupKey]
    · have hne : ¬k = k0 := fun hh => h0 hh.symm
      simp [lookupKey, h0, ih, hne]

theorem mem_of_lookupKey_eq_some {db : Store} {k : RKey} {rv : RVal}
    (h : lookupKey db k = some rv) : (k, rv) ∈ db := by
  induction db with
  | nil => simp [lookupKey] at h
  | cons e rest ih =>
    obtain ⟨k0, v0⟩ := e
    by_cases h0 : k0 = k
    · subst h0
      simp [lookupKey] at h
      simp [h]
    · simp [lookupKey, h0] at h
      exact List.mem_cons_of_mem _ (ih h)

theorem delKey_not_present {db : Store} {k : RKey} (h : lookupKey db k = none) :
    delKey db k = (0, db) := by
  induction db with
  | nil => simp [delKey]
  | cons e rest ih =>
    obtain ⟨k0, v0⟩ := e
    by_cases h0 : k0 = k
    · subst h0; simp [lookupKey] at h
    · rw [lookupKey_cons_ne fun hh : k = k0 => h0 hh.symm] at h
      · simp [delKey, h0, ih h]

theorem lookupKey_delKey_self (db : Store) (k : RKey) :
    lookupKey (delKey db k).2 k = none := by
  induction db with
  | nil => simp [delKey, lookupKey]
  | cons e rest ih =>
    obtain ⟨k0, v0⟩ := e
    by_cases h0 : k0 = k
    · subst h0; simpa [delKey] using ih
    · simpa [delKey, h0, lookupKey, h0] using ih

theorem lookupKey_delKey_ne (db : Store) {k k' : RKey} (h : k' ≠ k) :
    lookupKey (delKey db k).2 k' = lookupKey db k' := by
  induction db with
  | nil => simp [delKey]
  | cons e rest ih =>
    obtain ⟨k0, v0⟩ := e
    by_cases h0 : k0 = k
    · subst h0
      simpa [delKey, lookupKey, Ne.symm h] using ih
    · by_cases h1 : k0 = k'
      · subst h1; simp [delKey, h0, lookupKey]
      · simp [delKey, h0, lookupKey, h1, ih]

theorem map_fst_delKey_sublist (db : Store) (k : RKey) :
    ((delKey db k).2.map Prod.fst).Sublist (db.map Prod.fst) := by
  induction db with
  | nil => simp [delKey]
  | cons e rest ih =>
    obtain ⟨k0, v0⟩ := e
    by_cases h0 : k0 = k
    · subst h0
      simpa [delKey] using List.Sublist.cons k0 ih
    · simpa [delKey, h0] using List.Sublist.cons₂ k0 ih

theorem delKey_count_one {db : Store} {k : RKey}
    (nodup : (db.map Prod.fst).Nodup) (h : lookupKey db k ≠ none) :
    (delKey db k).1 = 1 := by
  induction db with
  | nil => simp [lookupKey] at h
  | cons e rest ih =>
    obtain ⟨k0, v0⟩ := e
    rw [List.map_cons, List.nodup_cons] at nodup
    by_cases h0 : k0 = k
    · subst h0
      have hrest : lookupKey rest k0 = none := lookupKey_eq_none_iff.mpr nodup.1
      simp [delKey, delKey_not_present hrest]
    · rw [lookupKey_cons_ne fun hh : k = k0 => h0 hh.symm] at h
      simp [delKey, h0, ih nodup.2 h]

theorem delKeysRun_count {db : Store} {ks : List RKey}
    (nodupKs : ks.Nodup) (nodupDb : (db.map Prod.fst).Nodup)
    (mem : ∀ k ∈ ks, lookupKey db k ≠ none) :
    (delKeysRun db ks).1 = ks.length := by
  induction ks generalizing db with
  | nil => simp [delKeysRun]
  | cons k ks ih =>
    rw [List.nodup_cons] at nodupKs
    have h1 : (delKey db k).1 = 1 :=
      delKey_count_one nodupDb (mem k (by simp))
    have hsub := map_fst_delKey_sublist db k
    have hnd2 : (((delKey db k).2).map Prod.fst).Nodup := hsub.nodup nodupDb
    have hmem2 : ∀ k' ∈ ks, lookupKey (delKey db k).2 k' ≠ none := by
      intro k' hk'
      have hne : k' ≠ k := fun hh => nodupKs.1 (by rw [← hh]; exact hk')
      rw [lookupKey_delKey_ne db hne]
      exact mem k' (List.mem_cons_of_mem _ hk')
    simp [delKeysRun, h1, ih nodupKs.2 hnd2 hmem2, Nat.add_comm]

theorem mem_keysMatching {db : Store} {ns : String} {k : RKey} :
    k ∈ keysMatching db ns ↔ k.ns = ns ∧ k ∈ db.map Prod.fst := by
  simp [keysMatching, List.mem_filter, and_comm]

theorem keysMatching_nodup {db : Store} (ns : String)
    (h : (db.map Prod.fst).Nodup) : (keysMatching db ns).Nodup :=
  h.filter _

theorem getItemsWith_all_present {α : Type} {dec : RVal → α} {db : Store}
    {ks : List RKey} (h : ∀ k ∈ ks, lookupKey db k ≠ none) :
    getItemsWith dec db ks =
      .ok (ks.map fun k => dec ((lookupKey db k).getD default)) := by
  induction ks with
  | nil => simp [getItemsWith]
  | cons k ks ih =>
    rcases hk : lookupKey db k with _ | rv
    · exact absurd hk (h k (by simp))
    · simp [getItemsWith, hk, ih fun k' hk' => h k' (List.mem_cons_of_mem _ hk')]

theorem map_lookup_keysMatching {α : Type} {dec : RVal → α} {db : Store}
    {ns : String} (nodup : (db.map Prod.fst).Nodup) :
    ((keysMatching db ns).map fun k => dec ((lookupKey db k).getD default)) =
      nsRecords dec db ns := by
  induction db with
  | nil => simp [keysMatching, nsRecords]
  | cons e rest ih =>
    obtain ⟨k0, v0⟩ := e
    rw [List.map_cons, List.nodup_cons] at nodup
    have hcongr :
        ((keysMatching rest ns).map fun k => dec ((lookupKey ((k0, v0) :: rest) k).getD default)) =
          ((keysMatching rest ns).map fun k => dec ((lookupKey rest k).getD default)) := by
      refine List.map_congr_left fun k hk => ?_
      have hkmem : k ∈ rest.map Prod.fst := (mem_keysMatching.mp hk).2
      have hne : k ≠ k0 := fun hh => nodup.1 (by rw [← hh]; exact hkmem)
      rw [lookupKey_cons_ne hne]
    by_cases hns : k0.ns = ns
    · have : keysMatching ((k0, v0) :: rest) ns = k0 :: keysMatching rest ns := by
        simp [keysMatching, List.filter_cons, hns]
      rw [this, List.map_cons, lookupKey_cons_self]
      rw [hcongr, ih nodup.2]
      simp [nsRecords, List.filterMap_cons, hns]
    · have : keysMatching ((k0, v0) :: rest) ns = keysMatching rest ns := by
        simp [keysMatching, List.filter_cons, hns]
      rw [this, hcongr, ih nodup.2]
      simp [nsRecords, List.filterMap_cons, hns]

theorem getAll_eq_nsRecords {α : Type} {dec : RVal → α} {db : Store} {ns : String}
    (nodup : (db.map Prod.fst).Nodup) :
    getItemsWith dec db (keysMatching db ns) = .ok (nsRecords dec db ns) := by
  have hpresent : ∀ k ∈ keysMatching db ns, lookupKey db k ≠ none := by
    intro k hk hnone
    exact (lookupKey_eq_none_iff.mp hnone) (mem_keysMatching.mp hk).2
  rw [getItemsWith_all_present hpresent, map_lookup_keysMatching nodup]

theorem length_nsRecords {α : Type} {dec : RVal → α} {db : Store} {ns : String} :
    (nsRecords dec db ns).length = (keysMatching db ns).length := by
  induction db with
  | nil => simp [keysMatching, nsRecords]
  | cons e rest ih =>
    obtain ⟨k0, v0⟩ := e
    by_cases hns : k0.ns = ns
    · simp [keysMatching, nsRecords, List.filter_cons, List.filterMap_cons, hns] at ih ⊢
      simpa [keysMatching, nsRecords] using ih
    · simp [keysMatching, nsRecords, List.filter_cons, List.filterMap_cons, hns] at ih ⊢
      simpa [keysMatching, nsRecords] using ih

/-
Lemmas about the nested VoteHistory editor.
-/

theorem findPollIdx_eq_none_iff {h : List VoterPoll} {pid : Nat} :
    findPollIdx h pid = none ↔ ∀ e ∈ h, e.pollID ≠ pid := by
  induction h with
  | nil => simp [findPollIdx]
  | cons p t ih =>
    by_cases hp : p.pollID = pid
    · simp [findPollIdx, hp]
    · simp [findPollIdx, hp, ih]

theorem findPollIdx_isSome_of_mem {h : List VoterPoll} {pid : Nat} {e : VoterPoll}
    (hm : e ∈ h) (hp : e.pollID = pid) : (findPollIdx h pid).isSome := by
  rcases hf : findPollIdx h pid with _ | i
  · exact absurd hp (findPollIdx_eq_none_iff.mp hf e hm)
  · simp

theorem findPollIdx_eq_some {h : List VoterPoll} {pid : Nat} {i : Nat}
    (hf : findPollIdx h pid = some i) :
    i < h.length ∧ (h.getD i default).pollID = pid := by
  induction h generalizing i with
  | nil => simp [findPollIdx] at hf
  | cons p t ih =>
    by_cases hp : p.pollID = pid
    · simp [findPollIdx, hp] at hf
      subst hf
      simpa using hp
    · simp [findPollIdx, hp, Option.map_eq_some'] at hf
      obtain ⟨j, hj, hij⟩ := hf
      subst hij
      obtain ⟨hlt, hgd⟩ := ih hj
      exact ⟨by simpa using hlt, by simpa using hgd⟩

theorem findPollIdx_eraseIdx {h : List VoterPoll} {pid : Nat} {i : Nat}
    (nodup : (h.map VoterPoll.pollID).Nodup) (hf : findPollIdx h pid = some i) :
    ∀ e ∈ h.eraseIdx i, e.pollID ≠ pid := by
  induction h generalizing i with
  | nil => simp [findPollIdx] at hf
  | cons p t ih =>
    rw [List.map_cons, List.nodup_cons] at nodup
    by_cases hp : p.pollID = pid
    · simp [findPollIdx, hp] at hf
      subst hf
      rw [List.eraseIdx_cons_zero]
      intro e he
      rw [← hp]
      exact fun hh => nodup.1 (by rw [← hh]; exact List.mem_map_of_mem _ he)
    · simp [findPollIdx, hp, Option.map_eq_some'] at hf
      obtain ⟨j, hj, hij⟩ := hf
      subst hij
      rw [List.eraseIdx_cons_succ]
      intro e he
      rcases List.mem_cons.mp he with he0 | het
      · rw [he0]; exact hp
      · exact ih nodup.2 hj e het

theorem map_pollID_set {h : List VoterPoll} {i : Nat} {e : VoterPoll}
    (hi : i < h.length) (hp : (h.getD i default).pollID = e.pollID) :
    (h.set i e).map VoterPoll.pollID = h.map VoterPoll.pollID := by
  induction h generalizing i with
  | nil => simp at hi
  | cons p t ih =>
    match i with
    | 0 => simp_all
    | i + 1 =>
      rw [List.set_cons_succ, List.map_cons, List.map_cons,
        ih (by simpa using hi) (by simpa using hp)]

theorem dropLast_append_getLastD {l : List VoterPoll} (h : l ≠ []) (d : VoterPoll) :
    l.dropLast ++ [l.getLastD d] = l := by
  induction l generalizing d with
  | nil => exact absurd rfl h
  | cons a t ih =>
    match t with
    | [] => simp
    | b :: t' =>
      rw [List.dropLast_cons₂, List.getLastD_cons]
      simpa using ih (by simp) a

theorem dropLast_cons_ne {a : VoterPoll} {l : List VoterPoll} (h : l ≠ []) :
    (a :: l).dropLast = a :: l.dropLast := by
  match l with
  | [] => exact absurd rfl h
  | b :: t => exact List.dropLast_cons₂

theorem getLastD_irrel {l : List VoterPoll} (h : l ≠ []) (a b : VoterPoll) :
    l.getLastD a = l.getLastD b := by
  match l with
  | [] => exact absurd rfl h
  | c :: t => rw [List.getLastD_cons, List.getLastD_cons]

theorem swapRemove_perm {h : List VoterPoll} {i : Nat} (hi : i < h.length) :
    List.Perm (swapRemove h i) (h.eraseIdx i) := by
  induction h generalizing i with
  | nil => simp at hi
  | cons a t ih =>
    match i with
    | 0 =>
      match t with
      | [] => simp [swapRemove]
      | b :: t' =>
        have htne : (b : VoterPoll) :: t' ≠ [] := by simp
        have hz : (a :: b :: t').getLastD default = (b :: t').getLastD a :=
          List.getLastD_cons a default (b :: t')
        rw [List.eraseIdx_cons_zero]
        have hsw : swapRemove (a :: b :: t') 0 =
            (b :: t').getLastD a :: (b :: t').dropLast := by
          rw [swapRemove, hz, List.set_cons_zero, dropLast_cons_ne htne]
        rw [hsw]
        have hperm := List.perm_append_singleton ((b :: t').getLastD a) (b :: t').dropLast
        have hfull := dropLast_append_getLastD htne a
        exact (hfull ▸ hperm).symm
    | i + 1 =>
      have htlen : i < t.length := by simpa using hi
      have htne : t ≠ [] := by
        intro hh; rw [hh] at htlen; simp at htlen
      have hz : (a :: t).getLastD default = t.getLastD default := by
        rw [List.getLastD_cons]
        exact getLastD_irrel htne a default
      have hsetne : t.set i (t.getLastD default) ≠ [] := by
        intro hh
        have := congrArg List.length hh
        simp at this
        rw [this] at htlen; simp at htlen
      rw [List.eraseIdx_cons_succ]
      have hsw : swapRemove (a :: t) (i + 1) =
          a :: swapRemove t i := by
        rw [swapRemove, hz, List.set_cons_succ, dropLast_cons_ne hsetne, swapRemove]
      rw [hsw]
      exact (ih htlen).cons a

theorem swapRemove_length {h : List VoterPoll} {i : Nat} (hi : i < h.length) :
    (swapRemove h i).length + 1 = h.length := by
  rw [(swapRemove_perm hi).length_eq, List.length_eraseIdx, if_pos hi]
  omega

/-
Lemmas about the store invariant.
-/

theorem storeInv_setKey {db : Store} {k : RKey} {v : RVal}
    (h : StoreInv db) (hv : valInv v) : StoreInv (setKey db k v) := by
  induction db with
  | nil =>
    intro e he
    simp [setKey] at he
    rw [he]; exact hv
  | cons e0 rest ih =>
    obtain ⟨k0, v0⟩ := e0
    have h0 : valInv v0 := h (k0, v0) (by simp)
    have hrest : StoreInv rest := fun e he => h e (List.mem_cons_of_mem _ he)
    by_cases hk : k0 = k
    · subst hk
      intro e he
      simp [setKey] at he
      rcases he with he | he
      · rw [he]; exact hv
      · exact hrest e he
    · intro e he
      simp [setKey, hk] at he
      rcases he with he | he
      · rw [he]; exact h0
      · exact ih hrest e he

theorem storeInv_lookup {db : Store} {k : RKey} {rv : RVal}
    (h : StoreInv db) (hl : lookupKey db k = some rv) : valInv rv :=
  h (k, rv) (mem_of_lookupKey_eq_some hl)

theorem histUnique_decodeVoter {rv : RVal} (h : valInv rv) :
    HistUnique (decodeVoter rv) := by
  cases rv with
  | voter v => exact h
  | poll p => simp [decodeVoter, HistUnique]
  | vote vt => simp [decodeVoter, HistUnique]

/-
Claim theorems.
-/

/-- C2 counterexample: on an empty store, creating a Vote whose id is
not yet present but whose referenced voter does not exist, then reading
it back, does not return the record (both calls fail), refuting the
claim for votes without a referential-integrity precondition. -/
theorem C2_counterexample :
    (AddVote [] { voteID := 10, voterID := 99, pollID := 5, voteValue := 1, links := [] }).1 =
        .error "voter does not exists" ∧
    GetVote (AddVote [] { voteID := 10, voterID := 99, pollID := 5, voteValue := 1, links := [] }).2 10 ≠
      .ok { voteID := 10, voterID := 99, pollID := 5, voteValue := 1, links := voteLinks } := by
  decide

/-- C2 (amended): for a fresh id, create then get returns the record as
given, except that polls and votes come back with the Links field
replaced by the hardcoded hypermedia list (voters exactly as given);
for votes this additionally requires the referenced voter and poll
records to exist, as vote creation fails otherwise. -/
theorem C2_create_then_get (db : Store) :
    (∀ voter : Voter,
      lookupKey db (redisKeyFromId votersNS voter.voterID) = none →
        (AddVoter db voter).1 = .ok () ∧
        GetVoter (AddVoter db voter).2 voter.voterID = .ok voter) ∧
    (∀ poll : Poll,
      lookupKey db (redisKeyFromId pollsNS poll.pollID) = none →
        (AddPoll db poll).1 = .ok () ∧
        GetPoll (AddPoll db poll).2 poll.pollID = .ok { poll with links := pollLinks }) ∧
    (∀ vote : Vote,
      lookupKey db (redisKeyFromId votesNS vote.voteID) = none →
      lookupKey db (redisKeyFromId votersNS vote.voterID) ≠ none →
      lookupKey db (redisKeyFromId pollsNS vote.pollID) ≠ none →
        (AddVote db vote).1 = .ok () ∧
        GetVote (AddVote db vote).2 vote.voteID = .ok { vote with links := voteLinks }) := by
  refine ⟨?_, ?_, ?_⟩
  · intro voter h
    simp [AddVoter, h, GetVoter, lookupKey_setKey_self, decodeVoter]
  · intro poll h
    simp [AddPoll, h, GetPoll, lookupKey_setKey_self, decodePoll]
  · intro vote h hv hp
    rcases hv' : lookupKey db (redisKeyFromId votersNS vote.voterID) with _ | rv
    · exact absurd hv' hv
    rcases hp' : lookupKey db (redisKeyFromId pollsNS vote.pollID) with _ | rp
    · exact absurd hp' hp
    simp [AddVote, h, hv', hp', GetVote, lookupKey_setKey_self, decodeVote]

/-- C2 witness: the amended theorem applied to a concrete one-voter,
one-poll store and a concrete fresh vote. -/
theorem C2_witness :
    (AddVoter [] { voterID := 1, firstName := "a", lastName := "b", voteHistory := [] }).1 = .ok () ∧
    GetVoter (AddVoter [] { voterID := 1, firstName := "a", lastName := "b", voteHistory := [] }).2 1 =
      .ok { voterID := 1, firstName := "a", lastName := "b", voteHistory := [] } :=
  (C2_create_then_get []).1 { voterID := 1, firstName := "a", lastName := "b", voteHistory := [] }
    (by decide)

/-- C5: create is not idempotent. For voters and polls, creating a
fresh id succeeds and an immediate second create of the same id (with
any payload) returns the already-exists error and leaves the store — in
particular the record written by the first call — unmodified.  For
votes, whenever a first AddVote succeeded, a second AddVote of the same
id likewise returns the already-exists error and leaves the store
unmodified. -/
theorem C5_create_not_idempotent (db : Store) :
    (∀ voter w : Voter,
      lookupKey db (redisKeyFromId votersNS voter.voterID) = none →
      w.voterID = voter.voterID →
        (AddVoter db voter).1 = .ok () ∧
        AddVoter (AddVoter db voter).2 w =
          (.error "voter already exists", (AddVoter db voter).2)) ∧
    (∀ poll w : Poll,
      lookupKey db (redisKeyFromId pollsNS poll.pollID) = none →
      w.pollID = poll.pollID →
        (AddPoll db poll).1 = .ok () ∧
        AddPoll (AddPoll db poll).2 w =
          (.error "poll already exists", (AddPoll db poll).2)) ∧
    (∀ vote w : Vote,
      (AddVote db vote).1 = .ok () →
      w.voteID = vote.voteID →
        AddVote (AddVote db vote).2 w =
          (.error "vote already exists", (AddVote db vote).2)) := by
  refine ⟨?_, ?_, ?_⟩
  · intro voter w h hw
    simp [AddVoter, h, hw, lookupKey_setKey_self]
  · intro poll w h hw
    simp [AddPoll, h, hw, lookupKey_setKey_self]
  · intro vote w h hw
    rcases h0 : lookupKey db (redisKeyFromId votesNS vote.voteID) with _ | rv
    · rcases h1 : lookupKey db (redisKeyFromId votersNS vote.voterID) with _ | rv1
      · simp [AddVote, h0, h1] at h
      · rcases h2 : lookupKey db (redisKeyFromId pollsNS vote.pollID) with _ | rv2
        · simp [AddVote, h0, h1, h2] at h
        · simp [AddVote, h0, h1, h2, hw, lookupKey_setKey_self]
    · simp [AddVote, h0] at h

/-- C5 witness: the theorem applied to the empty store and concrete
voter, poll and vote records. -/
theorem C5_witness :
    ((AddVoter [] { voterID := 2, firstName := "x", lastName := "y", voteHistory := [] }).1 = .ok () ∧
      AddVoter (AddVoter [] { voterID := 2, firstName := "x", lastName := "y", voteHistory := [] }).2
          { voterID := 2, firstName := "z", lastName := "z", voteHistory := [] } =
        (.error "voter already exists",
          (AddVoter [] { voterID := 2, firstName := "x", lastName := "y", voteHistory := [] }).2)) ∧
    ((AddPoll [] { pollID := 3, pollTitle := "t", pollQuestion := "q", pollOptions := [], links := [] }).1 = .ok () ∧
      AddPoll (AddPoll [] { pollID := 3, pollTitle := "t", pollQuestion := "q", pollOptions := [], links := [] }).2
          { pollID := 3, pollTitle := "u", pollQuestion := "r", pollOptions := [], links := [] } =
        (.error "poll already exists",
          (AddPoll [] { pollID := 3, pollTitle := "t", pollQuestion := "q", pollOptions := [], links := [] }).2)) :=
  ⟨(C5_create_not_idempotent []).1
      { voterID := 2, firstName := "x", lastName := "y", voteHistory := [] }
      { voterID := 2, firstName := "z", lastName := "z", voteHistory := [] }
      (by decide) (by decide),
    (C5_create_not_idempotent []).2.1
      { pollID := 3, pollTitle := "t", pollQuestion := "q", pollOptions := [], links := [] }
      { pollID := 3, pollTitle := "u", pollQuestion := "r", pollOptions := [], links := [] }
      (by decide) (by decide)⟩

/-- C9: AddVoterPoll and UpdateVoterPoll dereference element 0 of the
request's VoteHistory right after the voter-existence check: with an
existing voter and an empty request history the access is out of bounds
and the operation panics (modelled as `none`); with a non-empty request
history, or an absent voter (checked first, returning the
voter-not-found error), no panic occurs. -/
theorem C9_history_index_panic (db : Store) (vid : Nat) (req : Voter) :
    (lookupKey db (redisKeyFromId votersNS vid) ≠ none →
      req.voteHistory = [] →
        AddVoterPoll db vid req = none ∧ UpdateVoterPoll db vid req = none) ∧
    (req.voteHistory ≠ [] →
        AddVoterPoll db vid req ≠ none ∧ UpdateVoterPoll db vid req ≠ none) ∧
    (lookupKey db (redisKeyFromId votersNS vid) = none →
        AddVoterPoll db vid req = some (.error "voter does not exist", db) ∧
        UpdateVoterPoll db vid req = some (.error "voter does not exist", db)) := by
  refine ⟨?_, ?_, ?_⟩
  · intro hv he
    rcases h0 : lookupKey db (redisKeyFromId votersNS vid) with _ | rv
    · exact absurd h0 hv
    · simp [AddVoterPoll, UpdateVoterPoll, h0, he]
  · intro hne
    rcases he : req.voteHistory with _ | ⟨e, rest⟩
    · exact absurd he hne
    rcases h0 : lookupKey db (redisKeyFromId votersNS vid) with _ | rv
    · simp [AddVoterPoll, UpdateVoterPoll, h0]
    · constructor
      · by_cases hf : (findPollIdx (decodeVoter rv).voteHistory e.pollID).isSome
        · simp [AddVoterPoll, h0, he, hf]
        · simp [AddVoterPoll, h0, he, hf]
      · rcases hf : findPollIdx (decodeVoter rv).voteHistory e.pollID with _ | i
        · simp [UpdateVoterPoll, h0, he, hf]
        · simp [UpdateVoterPoll, h0, he, hf]
  · intro h0
    simp [AddVoterPoll, UpdateVoterPoll, h0]

/-- C9 witness: the theorem applied to a concrete one-voter store and
an empty-history request record (the panic case) at voter id 1. -/
theorem C9_witness :
    (lookupKey [(redisKeyFromId votersNS 1,
        .voter { voterID := 1, firstName := "a", lastName := "b", voteHistory := [] })]
        (redisKeyFromId votersNS 1) ≠ none) ∧
    AddVoterPoll [(redisKeyFromId votersNS 1,
        .voter { voterID := 1, firstName := "a", lastName := "b", voteHistory := [] })] 1
      { voterID := 1, firstName := "", lastName := "", voteHistory := [] } = none :=
  ⟨by decide,
    ((C9_history_index_panic
        [(redisKeyFromId votersNS 1,
          .voter { voterID := 1, firstName := "a", lastName := "b", voteHistory := [] })] 1
        { voterID := 1, firstName := "", lastName := "", voteHistory := [] }).1
      (by decide) (by decide)).1⟩

/-- C10: the single-entity voter operations touch only the key
voters:<id>.  AddVoter, UpdateVoter and DeleteVoter leave the binding of
every other key — in the voters namespace as well as in the polls and
votes namespaces — unchanged, and GetVoter's result depends only on the
binding of voters:<id>. -/
theorem C10_voter_ops_frame (db : Store) (voter : Voter) (id : Nat) (k : RKey) :
    (k ≠ redisKeyFromId votersNS voter.voterID →
      lookupKey (AddVoter db voter).2 k = lookupKey db k ∧
      lookupKey (UpdateVoter db voter).2 k = lookupKey db k) ∧
    (k ≠ redisKeyFromId votersNS id →
      lookupKey (DeleteVoter db id).2 k = lookupKey db k) ∧
    (∀ db' : Store,
      lookupKey db' (redisKeyFromId votersNS id) = lookupKey db (redisKeyFromId votersNS id) →
      GetVoter db' id = GetVoter db id) := by
  refine ⟨?_, ?_, ?_⟩
  · intro hk
    constructor
    · rcases h0 : lookupKey db (redisKeyFromId votersNS voter.voterID) with _ | rv
      · simp [AddVoter, h0, lookupKey_setKey_ne db _ hk]
      · simp [AddVoter, h0]
    · rcases h0 : lookupKey db (redisKeyFromId votersNS voter.voterID) with _ | rv
      · simp [UpdateVoter, h0]
      · simp [UpdateVoter, h0, lookupKey_setKey_ne db _ hk]
  · intro hk
    have hdel := lookupKey_delKey_ne db (k := redisKeyFromId votersNS id) hk
    rcases h0 : (delKey db (redisKeyFromId votersNS id)).1 with _ | n
    · simpa [DeleteVoter, h0] using hdel
    · simpa [DeleteVoter, h0] using hdel
  · intro db' hdb
    simp [GetVoter, hdb]

/-- C10 witness: the theorem applied to a concrete two-record store, a
concrete voter and an unrelated polls-namespace key. -/
theorem C10_witness :
    (redisKeyFromId pollsNS 7 ≠ redisKeyFromId votersNS 1 ∧
      lookupKey (AddVoter [(redisKeyFromId pollsNS 7,
          .poll { pollID := 7, pollTitle := "", pollQuestion := "", pollOptions := [], links := [] })]
          { voterID := 1, firstName := "a", lastName := "b", voteHistory := [] }).2
          (redisKeyFromId pollsNS 7) =
        lookupKey [(redisKeyFromId pollsNS 7,
          .poll { pollID := 7, pollTitle := "", pollQuestion := "", pollOptions := [], links := [] })]
          (redisKeyFromId pollsNS 7)) :=
  ⟨by decide,
    ((C10_voter_ops_frame
        [(redisKeyFromId pollsNS 7,
          .poll { pollID := 7, pollTitle := "", pollQuestion := "", pollOptions := [], links := [] })]
        { voterID := 1, firstName := "a", lastName := "b", voteHistory := [] } 1
        (redisKeyFromId pollsNS 7)).1 (by decide)).1⟩

/-- C1 counterexample: when a record is already stored under
votes:<V.VoteID>, AddVote of a vote whose referenced voter is absent
fails with the duplicate-vote error, not with the claimed reference
error, because the duplicate check runs before the voter check. -/
theorem C1_counterexample :
    lookupKey [(redisKeyFromId votesNS 10,
        .vote { voteID := 10, voterID := 1, pollID := 5, voteValue := 1, links := [] })]
      (redisKeyFromId votersNS 99) = none ∧
    (AddVote [(redisKeyFromId votesNS 10,
        .vote { voteID := 10, voterID := 1, pollID := 5, voteValue := 1, links := [] })]
      { voteID := 10, voterID := 99, pollID := 5, voteValue := 1, links := [] }).1 ≠
      .error "voter does not exists" ∧
    (AddVote [(redisKeyFromId votesNS 10,
        .vote { voteID := 10, voterID := 1, pollID := 5, voteValue := 1, links := [] })]
      { voteID := 10, voterID := 99, pollID := 5, voteValue := 1, links := [] }).1 =
      .error "vote already exists" := by
  decide

/-- C1 (amended): provided no record is yet stored under
votes:<V.VoteID>, AddVote fails with the error 'voter does not exists'
when voters:<V.VoterID> is absent, and — the voter check being performed
first — with the error 'poll does not exists' when the voter exists but
polls:<V.PollID> is absent; in either failure case the whole store, in
particular the votes namespace, is unchanged. -/
theorem C1_addVote_reference_errors (db : Store) (vote : Vote)
    (hfresh : lookupKey db (redisKeyFromId votesNS vote.voteID) = none) :
    (lookupKey db (redisKeyFromId votersNS vote.voterID) = none →
      AddVote db vote = (.error "voter does not exists", db)) ∧
    (lookupKey db (redisKeyFromId votersNS vote.voterID) ≠ none →
      lookupKey db (redisKeyFromId pollsNS vote.pollID) = none →
      AddVote db vote = (.error "poll does not exists", db)) := by
  constructor
  · intro hv
    simp [AddVote, hfresh, hv]
  · intro hv hp
    rcases hv' : lookupKey db (redisKeyFromId votersNS vote.voterID) with _ | rv
    · exact absurd hv' hv
    · simp [AddVote, hfresh, hv', hp]

/-- C1 witness: the amended theorem applied to a concrete one-poll
store and a vote whose voter reference is absent. -/
theorem C1_witness :
    lookupKey [(redisKeyFromId pollsNS 5,
        .poll { pollID := 5, pollTitle := "", pollQuestion := "", pollOptions := [], links := [] })]
      (redisKeyFromId votesNS 11) = none ∧
    AddVote [(redisKeyFromId pollsNS 5,
        .poll { pollID := 5, pollTitle := "", pollQuestion := "", pollOptions := [], links := [] })]
      { voteID := 11, voterID := 99, pollID := 5, voteValue := 1, links := [] } =
      (.error "voter does not exists",
        [(redisKeyFromId pollsNS 5,
          .poll { pollID := 5, pollTitle := "", pollQuestion := "", pollOptions := [], links := [] })]) :=
  ⟨by decide,
    (C1_addVote_reference_errors
        [(redisKeyFromId pollsNS 5,
          .poll { pollID := 5, pollTitle := "", pollQuestion := "", pollOptions := [], links := [] })]
        { voteID := 11, voterID := 99, pollID := 5, voteValue := 1, links := [] }
        (by decide)).1 (by decide)⟩

/-- C8 counterexample: on the empty store the scan matches zero keys,
so the number of keys actually removed (zero) equals the number
matched, yet DeleteAllVoters does not return success — go-redis sends
an argument-less DEL, which the backend rejects with its arity error —
and the returned error is not the partial-failure error either. -/
theorem C8_counterexample :
    keysMatching ([] : Store) votersNS = [] ∧
    (DeleteAllVoters [] []).1 ≠ .ok () ∧
    (DeleteAllVoters [] []).1 ≠ .error "one or more voters could not be deleted" ∧
    (DeleteAllVoters [] []).1 = .error RedisDelArityError := by
  decide

/-- C8 (amended): when at least one key matches the namespace scan,
each deleteAll returns success exactly when the number of keys actually
removed equals the number matched, and otherwise returns the
partial-failure error; when zero keys match, the argument-less DEL is
rejected by the backend and deleteAll returns the arity error with the
store unchanged.  In a sequential run on a duplicate-free store whose
namespace is non-empty the counts agree, so deleteAll succeeds. -/
theorem C8_deleteAll_partial_failure (scanDb db : Store) :
    ((keysMatching scanDb votersNS ≠ [] →
      ((DeleteAllVoters scanDb db).1 = .ok () ↔
        (delKeysRun db (keysMatching scanDb votersNS)).1 =
          (keysMatching scanDb votersNS).length) ∧
      ((DeleteAllVoters scanDb db).1 ≠ .ok () →
        (DeleteAllVoters scanDb db).1 =
          .error "one or more voters could not be deleted")) ∧
     (keysMatching scanDb votersNS = [] →
      DeleteAllVoters scanDb db = (.error RedisDelArityError, db))) ∧
    ((keysMatching scanDb pollsNS ≠ [] →
      ((DeleteAllPolls scanDb db).1 = .ok () ↔
        (delKeysRun db (keysMatching scanDb pollsNS)).1 =
          (keysMatching scanDb pollsNS).length) ∧
      ((DeleteAllPolls scanDb db).1 ≠ .ok () →
        (DeleteAllPolls scanDb db).1 =
          .error "one or more polls could not be deleted")) ∧
     (keysMatching scanDb pollsNS = [] →
      DeleteAllPolls scanDb db = (.error RedisDelArityError, db))) ∧
    ((keysMatching scanDb votesNS ≠ [] →
      ((DeleteAllVotes scanDb db).1 = .ok () ↔
        (delKeysRun db (keysMatching scanDb votesNS)).1 =
          (keysMatching scanDb votesNS).length) ∧
      ((DeleteAllVotes scanDb db).1 ≠ .ok () →
        (DeleteAllVotes scanDb db).1 =
          .error "one or more votes could not be deleted")) ∧
     (keysMatching scanDb votesNS = [] →
      DeleteAllVotes scanDb db = (.error RedisDelArityError, db))) ∧
    ((db.map Prod.fst).Nodup →
      (keysMatching db votersNS ≠ [] → (DeleteAllVoters db db).1 = .ok ()) ∧
      (keysMatching db pollsNS ≠ [] → (DeleteAllPolls db db).1 = .ok ()) ∧
      (keysMatching db votesNS ≠ [] → (DeleteAllVotes db db).1 = .ok ())) := by
  refine ⟨⟨?_, ?_⟩, ⟨?_, ?_⟩, ⟨?_, ?_⟩, fun hnd => ?_⟩
  · intro hne
    rcases hks : keysMatching scanDb votersNS with _ | ⟨k, ks'⟩
    · exact absurd hks hne
    constructor
    · by_cases h : (delKeysRun db (k :: ks')).1 = ks'.length + 1 <;>
        simp [DeleteAllVoters, hks, delKeys, h]
    · by_cases h : (delKeysRun db (k :: ks')).1 = ks'.length + 1 <;>
        simp [DeleteAllVoters, hks, delKeys, h]
  · intro hks
    simp [DeleteAllVoters, hks, delKeys]
  · intro hne
    rcases hks : keysMatching scanDb pollsNS with _ | ⟨k, ks'⟩
    · exact absurd hks hne
    constructor
    · by_cases h : (delKeysRun db (k :: ks')).1 = ks'.length + 1 <;>
        simp [DeleteAllPolls, hks, delKeys, h]
    · by_cases h : (delKeysRun db (k :: ks')).1 = ks'.length + 1 <;>
        simp [DeleteAllPolls, hks, delKeys, h]
  · intro hks
    simp [DeleteAllPolls, hks, delKeys]
  · intro hne
    rcases hks : keysMatching scanDb votesNS with _ | ⟨k, ks'⟩
    · exact absurd hks hne
    constructor
    · by_cases h : (delKeysRun db (k :: ks')).1 = ks'.length + 1 <;>
        simp [DeleteAllVotes, hks, delKeys, h]
    · by_cases h : (delKeysRun db (k :: ks')).1 = ks'.length + 1 <;>
        simp [DeleteAllVotes, hks, delKeys, h]
  · intro hks
    simp [DeleteAllVotes, hks, delKeys]
  · have hcount : ∀ ns : String,
        (delKeysRun db (keysMatching db ns)).1 = (keysMatching db ns).length := by
      intro ns
      refine delKeysRun_count (keysMatching_nodup ns hnd) hnd ?_
      intro k hk hnone
      exact (lookupKey_eq_none_iff.mp hnone) (mem_keysMatching.mp hk).2
    refine ⟨fun hne => ?_, fun hne => ?_, fun hne => ?_⟩
    · rcases hks : keysMatching db votersNS with _ | ⟨k, ks'⟩
      · exact absurd hks hne
      · have hc := hcount votersNS
        rw [hks] at hc
        simp [DeleteAllVoters, hks, delKeys, hc]
    · rcases hks : keysMatching db pollsNS with _ | ⟨k, ks'⟩
      · exact absurd hks hne
      · have hc := hcount pollsNS
        rw [hks] at hc
        simp [DeleteAllPolls, hks, delKeys, hc]
    · rcases hks : keysMatching db votesNS with _ | ⟨k, ks'⟩
      · exact absurd hks hne
      · have hc := hcount votesNS
        rw [hks] at hc
        simp [DeleteAllVotes, hks, delKeys, hc]

/-- C8 witness: the amended theorem applied to a concrete two-record
store used as both snapshots (sequential run), whose voters namespace
is non-empty; the Nodup and non-emptiness hypotheses are discharged
concretely. -/
theorem C8_witness :
    ((([(redisKeyFromId votersNS 1,
          .voter { voterID := 1, firstName := "a", lastName := "b", voteHistory := [] }),
        (redisKeyFromId votesNS 2,
          .vote { voteID := 2, voterID := 1, pollID := 1, voteValue := 1, links := [] })] : Store).map
        Prod.fst).Nodup) ∧
    keysMatching
        [(redisKeyFromId votersNS 1,
          .voter { voterID := 1, firstName := "a", lastName := "b", voteHistory := [] }),
         (redisKeyFromId votesNS 2,
          .vote { voteID := 2, voterID := 1, pollID := 1, voteValue := 1, links := [] })]
        votersNS ≠ [] ∧
    (DeleteAllVoters
        [(redisKeyFromId votersNS 1,
          .voter { voterID := 1, firstName := "a", lastName := "b", voteHistory := [] }),
         (redisKeyFromId votesNS 2,
          .vote { voteID := 2, voterID := 1, pollID := 1, voteValue := 1, links := [] })]
        [(redisKeyFromId votersNS 1,
          .voter { voterID := 1, firstName := "a", lastName := "b", voteHistory := [] }),
         (redisKeyFromId votesNS 2,
          .vote { voteID := 2, voterID := 1, pollID := 1, voteValue := 1, links := [] })]).1 = .ok () :=
  ⟨by decide, by decide,
    (((C8_deleteAll_partial_failure
        [(redisKeyFromId votersNS 1,
          .voter { voterID := 1, firstName := "a", lastName := "b", voteHistory := [] }),
         (redisKeyFromId votesNS 2,
          .vote { voteID := 2, voterID := 1, pollID := 1, voteValue := 1, links := [] })]
        [(redisKeyFromId votersNS 1,
          .voter { voterID := 1, firstName := "a", lastName := "b", voteHistory := [] }),
         (redisKeyFromId votesNS 2,
          .vote { voteID := 2, voterID := 1, pollID := 1, voteValue := 1, links := [] })]).2.2.2
      (by decide)).1 (by decide))⟩

/-- C3: on a duplicate-free store, GetAllVoters returns the empty
sequence when the voters namespace holds no keys, while GetAllPolls and
GetAllVotes each return exactly the one sentinel record — zero/empty in
every field except the hardcoded Links list — when their namespace is
empty; when records exist, each listAll returns exactly the stored
records of its namespace in scan order, with no sentinel appended. -/
theorem C3_listAll_empty_and_full (db : Store) (nodup : (db.map Prod.fst).Nodup) :
    (keysMatching db votersNS = [] → GetAllVoters db = .ok []) ∧
    (keysMatching db pollsNS = [] → GetAllPolls db = .ok [sentinelPoll]) ∧
    (keysMatching db votesNS = [] → GetAllVotes db = .ok [sentinelVote]) ∧
    GetAllVoters db = .ok (nsRecords decodeVoter db votersNS) ∧
    (keysMatching db pollsNS ≠ [] → GetAllPolls db = .ok (nsRecords decodePoll db pollsNS)) ∧
    (keysMatching db votesNS ≠ [] → GetAllVotes db = .ok (nsRecords decodeVote db votesNS)) := by
  refine ⟨?_, ?_, ?_, ?_, ?_, ?_⟩
  · intro h; simp [GetAllVoters, h, getItemsWith]
  · intro h; simp [GetAllPolls, h, getItemsWith]
  · intro h; simp [GetAllVotes, h, getItemsWith]
  · simp [GetAllVoters, getAll_eq_nsRecords nodup]
  · intro h
    have hne : ¬(nsRecords decodePoll db pollsNS).length < 1 := by
      rw [length_nsRecords]
      have := List.length_pos.mpr h
      omega
    simp [GetAllPolls, getAll_eq_nsRecords nodup, hne]
  · intro h
    have hne : ¬(nsRecords decodeVote db votesNS).length < 1 := by
      rw [length_nsRecords]
      have := List.length_pos.mpr h
      omega
    simp [GetAllVotes, getAll_eq_nsRecords nodup, hne]

/-- C3 witness: the theorem applied to the empty store (sentinel
records for polls and votes, empty sequence for voters) and to a
concrete one-poll store (no sentinel appended). -/
theorem C3_witness :
    (GetAllVoters [] = .ok [] ∧
      GetAllPolls [] = .ok [sentinelPoll] ∧
      GetAllVotes [] = .ok [sentinelVote]) ∧
    GetAllPolls [(redisKeyFromId pollsNS 5,
        .poll { pollID := 5, pollTitle := "t", pollQuestion := "q", pollOptions := [], links := pollLinks })] =
      .ok [{ pollID := 5, pollTitle := "t", pollQuestion := "q", pollOptions := [], links := pollLinks }] :=
  ⟨⟨(C3_listAll_empty_and_full [] (by decide)).1 (by decide),
    (C3_listAll_empty_and_full [] (by decide)).2.1 (by decide),
    (C3_listAll_empty_and_full [] (by decide)).2.2.1 (by decide)⟩,
    (C3_listAll_empty_and_full
        [(redisKeyFromId pollsNS 5,
          .poll { pollID := 5, pollTitle := "t", pollQuestion := "q", pollOptions := [], links := pollLinks })]
        (by decide)).2.2.2.2.1 (by decide)⟩

theorem storeInv_updateVoter {db : Store} (hinv : StoreInv db) {v : Voter}
    (hv : HistUnique v) : StoreInv (UpdateVoter db v).2 := by
  rcases h0 : lookupKey db (redisKeyFromId votersNS v.voterID) with _ | rv
  · simpa [UpdateVoter, h0] using hinv
  · simp only [UpdateVoter, h0]
    exact storeInv_setKey hinv (show valInv (.voter v) from hv)

theorem histUnique_append {h : List VoterPoll} {e : VoterPoll}
    (hh : (h.map VoterPoll.pollID).Nodup) (he : ∀ x ∈ h, x.pollID ≠ e.pollID) :
    ((h ++ [e]).map VoterPoll.pollID).Nodup := by
  simp only [List.map_append, List.map_cons, List.map_nil]
  have hperm := List.perm_append_singleton (VoterPoll.pollID e)
    (h.map VoterPoll.pollID)
  rw [hperm.nodup_iff, List.nodup_cons]
  refine ⟨fun hmem => ?_, hh⟩
  obtain ⟨x, hx, hxe⟩ := List.mem_map.mp hmem
  exact he x hx hxe

/-- C4 counterexample: AddVoter stores the request record verbatim, so
adding a voter whose own VoteHistory already carries two entries with
the same PollID writes a record that violates the at-most-one-entry-per
-PollID invariant: AddVoter does not preserve it on every record it
writes. -/
theorem C4_counterexample :
    (AddVoter [] { voterID := 1, firstName := "a", lastName := "b", voteHistory := [{ pollID := 1, voteDate := 0 }, { pollID := 1, voteDate := 1 }] }).1 = .ok () ∧
    lookupKey (AddVoter [] { voterID := 1, firstName := "a", lastName := "b", voteHistory := [{ pollID := 1, voteDate := 0 }, { pollID := 1, voteDate := 1 }] }).2 (redisKeyFromId votersNS 1) = some (.voter { voterID := 1, firstName := "a", lastName := "b", voteHistory := [{ pollID := 1, voteDate := 0 }, { pollID := 1, voteDate := 1 }] }) ∧
    ¬HistUnique { voterID := 1, firstName := "a", lastName := "b", voteHistory := [{ pollID := 1, voteDate := 0 }, { pollID := 1, voteDate := 1 }] } := by
  decide

/-- C4 (amended): on a store whose voter records all satisfy the
at-most-one-entry-per-PollID invariant, the nested history operations
AddVoterPoll, UpdateVoterPoll and DeleteVoterPoll preserve the
invariant on every record they write unconditionally, while AddVoter
and UpdateVoter preserve it provided the request record itself
satisfies it (they store the request verbatim and enforce nothing). -/
theorem C4_histUnique_preservation (db : Store) (hinv : StoreInv db) :
    (∀ voter : Voter, HistUnique voter → StoreInv (AddVoter db voter).2) ∧
    (∀ voter : Voter, HistUnique voter → StoreInv (UpdateVoter db voter).2) ∧
    (∀ (vid : Nat) (req : Voter) (res : Except String Unit) (db' : Store),
      AddVoterPoll db vid req = some (res, db') → StoreInv db') ∧
    (∀ (vid : Nat) (req : Voter) (res : Except String Unit) (db' : Store),
      UpdateVoterPoll db vid req = some (res, db') → StoreInv db') ∧
    (∀ vid pid : Nat, StoreInv (DeleteVoterPoll db vid pid).2) := by
  refine ⟨?_, ?_, ?_, ?_, ?_⟩
  · intro voter hv
    rcases h0 : lookupKey db (redisKeyFromId votersNS voter.voterID) with _ | rv
    · simp only [AddVoter, h0]
      exact storeInv_setKey hinv (show valInv (.voter voter) from hv)
    · simpa [AddVoter, h0] using hinv
  · intro voter hv
    exact storeInv_updateVoter hinv hv
  · intro vid req res db' heq
    rcases h0 : lookupKey db (redisKeyFromId votersNS vid) with _ | rv
    · simp [AddVoterPoll, h0] at heq
      rw [← heq.2]; exact hinv
    · rcases hreq : req.voteHistory with _ | ⟨e, rest⟩
      · simp [AddVoterPoll, h0, hreq] at heq
      · by_cases hf : (findPollIdx (decodeVoter rv).voteHistory e.pollID).isSome
        · simp [AddVoterPoll, h0, hreq, hf] at heq
          rw [← heq.2]; exact hinv
        · simp [AddVoterPoll, h0, hreq, hf] at heq
          rw [← heq.2]
          have hbase : HistUnique (decodeVoter rv) :=
            histUnique_decodeVoter (storeInv_lookup hinv h0)
          have hnone : findPollIdx (decodeVoter rv).voteHistory e.pollID = none := by
            rcases hc : findPollIdx (decodeVoter rv).voteHistory e.pollID with _ | i
            · rfl
            · rw [hc] at hf; simp at hf
          have hu : HistUnique { decodeVoter rv with
              voteHistory := (decodeVoter rv).voteHistory ++ [e] } :=
            histUnique_append hbase (findPollIdx_eq_none_iff.mp hnone)
          exact storeInv_updateVoter hinv hu
  · intro vid req res db' heq
    rcases h0 : lookupKey db (redisKeyFromId votersNS vid) with _ | rv
    · simp [UpdateVoterPoll, h0] at heq
      rw [← heq.2]; exact hinv
    · rcases hreq : req.voteHistory with _ | ⟨e, rest⟩
      · simp [UpdateVoterPoll, h0, hreq] at heq
      · rcases hf : findPollIdx (decodeVoter rv).voteHistory e.pollID with _ | i
        · simp [UpdateVoterPoll, h0, hreq, hf] at heq
          rw [← heq.2]; exact hinv
        · simp [UpdateVoterPoll, h0, hreq, hf] at heq
          rw [← heq.2]
          obtain ⟨hlt, hgd⟩ := findPollIdx_eq_some hf
          have hbase : HistUnique (decodeVoter rv) :=
            histUnique_decodeVoter (storeInv_lookup hinv h0)
          have hu : HistUnique { decodeVoter rv with
              voteHistory := (decodeVoter rv).voteHistory.set i e } := by
            unfold HistUnique at hbase ⊢
            simpa [map_pollID_set hlt hgd] using hbase
          exact storeInv_updateVoter hinv hu
  · intro vid pid
    rcases h0 : lookupKey db (redisKeyFromId votersNS vid) with _ | rv
    · simpa [DeleteVoterPoll, h0] using hinv
    · rcases hf : findPollIdx (decodeVoter rv).voteHistory pid with _ | i
      · simpa [DeleteVoterPoll, h0, hf] using hinv
      · simp only [DeleteVoterPoll, h0, hf]
        obtain ⟨hlt, hgd⟩ := findPollIdx_eq_some hf
        have hbase : HistUnique (decodeVoter rv) :=
          histUnique_decodeVoter (storeInv_lookup hinv h0)
        have hu : HistUnique { decodeVoter rv with
            voteHistory := swapRemove (decodeVoter rv).voteHistory i } := by
          unfold HistUnique at hbase ⊢
          rw [((swapRemove_perm hlt).map VoterPoll.pollID).nodup_iff]
          exact (((decodeVoter rv).voteHistory.eraseIdx_sublist i).map
            VoterPoll.pollID).nodup hbase
        exact storeInv_updateVoter hinv hu

/-- C4 witness: the amended theorem applied to a concrete one-voter
store with a concrete valid AddVoterPoll request. -/
theorem C4_witness :
    StoreInv [(redisKeyFromId votersNS 1, .voter { voterID := 1, firstName := "a", lastName := "b", voteHistory := [{ pollID := 2, voteDate := 0 }] })] ∧
    StoreInv (AddVoter [(redisKeyFromId votersNS 1, .voter { voterID := 1, firstName := "a", lastName := "b", voteHistory := [{ pollID := 2, voteDate := 0 }] })] { voterID := 3, firstName := "c", lastName := "d", voteHistory := [{ pollID := 5, voteDate := 0 }] }).2 :=
  ⟨by decide,
    (C4_histUnique_preservation [(redisKeyFromId votersNS 1, .voter { voterID := 1, firstName := "a", lastName := "b", voteHistory := [{ pollID := 2, voteDate := 0 }] })] (by decide)).1 { voterID := 3, firstName := "c", lastName := "d", voteHistory := [{ pollID := 5, voteDate := 0 }] } (by decide)⟩

/-- C6: for an existing voter (whose history honours the documented
at-most-one-entry-per-PollID data-model invariant) with an entry for
the given poll id, DeleteVoterPoll succeeds and the stored history
afterwards is the swap-with-last-and-truncate removal at the matched
index: exactly one entry shorter, free of that PollID, and equal as a
multiset to the previous history minus the removed entry; if no entry
matches, it returns the not-found error and the store is unchanged. -/
theorem C6_deleteVoterPoll (db : Store) (vid pid : Nat) (voter : Voter)
    (hlook : lookupKey db (redisKeyFromId votersNS vid) = some (.voter voter))
    (hkey : voter.voterID = vid)
    (hu : HistUnique voter) :
    ((∃ e ∈ voter.voteHistory, e.pollID = pid) →
      ∃ i, findPollIdx voter.voteHistory pid = some i ∧
        (voter.voteHistory.getD i default).pollID = pid ∧
        (DeleteVoterPoll db vid pid).1 = .ok () ∧
        GetVoterPolls (DeleteVoterPoll db vid pid).2 vid =
          .ok (swapRemove voter.voteHistory i) ∧
        (swapRemove voter.voteHistory i).length + 1 = voter.voteHistory.length ∧
        List.Perm (swapRemove voter.voteHistory i) (voter.voteHistory.eraseIdx i) ∧
        ∀ e ∈ swapRemove voter.voteHistory i, e.pollID ≠ pid) ∧
    ((∀ e ∈ voter.voteHistory, e.pollID ≠ pid) →
      DeleteVoterPoll db vid pid = (.error "poll does not exist in voter", db)) := by
  constructor
  · rintro ⟨e, he, hep⟩
    have hsome := findPollIdx_isSome_of_mem he hep
    rcases hf : findPollIdx voter.voteHistory pid with _ | i
    · rw [hf] at hsome; simp at hsome
    obtain ⟨hlt, hgd⟩ := findPollIdx_eq_some hf
    have hdb' : DeleteVoterPoll db vid pid =
        (.ok (), setKey db (redisKeyFromId votersNS vid)
          (.voter { voter with voteHistory := swapRemove voter.voteHistory i })) := by
      simp [DeleteVoterPoll, hlook, hf, decodeVoter, UpdateVoter, hkey]
    refine ⟨i, rfl, hgd, by rw [hdb'], ?_, swapRemove_length hlt, swapRemove_perm hlt, ?_⟩
    · rw [hdb']
      simp [GetVoterPolls, lookupKey_setKey_self, decodeVoter]
    · intro x hx
      have hx2 : x ∈ voter.voteHistory.eraseIdx i := (swapRemove_perm hlt).mem_iff.mp hx
      exact findPollIdx_eraseIdx hu hf x hx2
  · intro hnone
    have hf : findPollIdx voter.voteHistory pid = none := findPollIdx_eq_none_iff.mpr hnone
    simp [DeleteVoterPoll, hlook, hf, decodeVoter]

/-- C6 witness: the theorem applied to a concrete one-voter store whose
voter holds history entries for polls 5 and 6, deleting poll 5. -/
theorem C6_witness :
    lookupKey [(redisKeyFromId votersNS 1, .voter { voterID := 1, firstName := "a", lastName := "b", voteHistory := [{ pollID := 5, voteDate := 0 }, { pollID := 6, voteDate := 1 }] })] (redisKeyFromId votersNS 1) = some (.voter { voterID := 1, firstName := "a", lastName := "b", voteHistory := [{ pollID := 5, voteDate := 0 }, { pollID := 6, voteDate := 1 }] }) ∧
    HistUnique { voterID := 1, firstName := "a", lastName := "b", voteHistory := [{ pollID := 5, voteDate := 0 }, { pollID := 6, voteDate := 1 }] } ∧
    (DeleteVoterPoll [(redisKeyFromId votersNS 1, .voter { voterID := 1, firstName := "a", lastName := "b", voteHistory := [{ pollID := 5, voteDate := 0 }, { pollID := 6, voteDate := 1 }] })] 1 5).1 = .ok () := by
  refine ⟨by decide, by decide, ?_⟩
  obtain ⟨i, _, _, hok, _⟩ :=
    (C6_deleteVoterPoll
        [(redisKeyFromId votersNS 1, .voter { voterID := 1, firstName := "a", lastName := "b", voteHistory := [{ pollID := 5, voteDate := 0 }, { pollID := 6, voteDate := 1 }] })]
        1 5
        { voterID := 1, firstName := "a", lastName := "b", voteHistory := [{ pollID := 5, voteDate := 0 }, { pollID := 6, voteDate := 1 }] }
        (by decide) (by decide) (by decide)).1
      ⟨{ pollID := 5, voteDate := 0 }, by decide, rfl⟩
  exact hok

/-- C7: on an existing voter, adding a history entry for a fresh
PollID succeeds, and an immediate second AddVoterPoll whose request
head bears the same PollID returns the already-exists error (found by
the linear scan of the stored history) and leaves the store — hence the
stored history's length and contents — unchanged; AddVoterPoll on an
absent voter returns the voter-not-found error. -/
theorem C7_addVoterPoll_duplicate (db : Store) :
    (∀ (vid : Nat) (voter req1 : Voter) (e1 : VoterPoll) (rest1 : List VoterPoll),
      lookupKey db (redisKeyFromId votersNS vid) = some (.voter voter) →
      voter.voterID = vid →
      req1.voteHistory = e1 :: rest1 →
      (∀ e ∈ voter.voteHistory, e.pollID ≠ e1.pollID) →
      ∃ db1, AddVoterPoll db vid req1 = some (.ok (), db1) ∧
        GetVoterPolls db1 vid = .ok (voter.voteHistory ++ [e1]) ∧
        ∀ (req2 : Voter) (e2 : VoterPoll) (rest2 : List VoterPoll),
          req2.voteHistory = e2 :: rest2 →
          e2.pollID = e1.pollID →
          AddVoterPoll db1 vid req2 =
            some (.error "poll already exists in voter", db1)) ∧
    (∀ (vid : Nat) (req : Voter),
      lookupKey db (redisKeyFromId votersNS vid) = none →
      AddVoterPoll db vid req = some (.error "voter does not exist", db)) := by
  constructor
  · intro vid voter req1 e1 rest1 hlook hkey hreq1 hfresh
    have hf1 : findPollIdx voter.voteHistory e1.pollID = none :=
      findPollIdx_eq_none_iff.mpr hfresh
    refine ⟨setKey db (redisKeyFromId votersNS vid)
      (.voter { voter with voteHistory := voter.voteHistory ++ [e1] }), ?_, ?_, ?_⟩
    · simp [AddVoterPoll, hlook, hreq1, decodeVoter, hf1, UpdateVoter, hkey]
    · simp [GetVoterPolls, lookupKey_setKey_self, decodeVoter]
    · intro req2 e2 rest2 hreq2 he2
      have hmem : e1 ∈ voter.voteHistory ++ [e1] := by simp
      have hsome : (findPollIdx (voter.voteHistory ++ [e1]) e2.pollID).isSome :=
        findPollIdx_isSome_of_mem hmem he2.symm
      simp [AddVoterPoll, lookupKey_setKey_self, decodeVoter, hreq2, hsome]
  · intro vid req h0
    simp [AddVoterPoll, h0]

/-- C7 witness: the theorem applied to a concrete one-voter store with
an empty stored history, adding poll 5 and then adding poll 5 again. -/
theorem C7_witness :
    lookupKey [(redisKeyFromId votersNS 1, .voter { voterID := 1, firstName := "a", lastName := "b", voteHistory := [] })] (redisKeyFromId votersNS 1) = some (.voter { voterID := 1, firstName := "a", lastName := "b", voteHistory := [] }) ∧
    ∃ db1,
      AddVoterPoll [(redisKeyFromId votersNS 1, .voter { voterID := 1, firstName := "a", lastName := "b", voteHistory := [] })] 1 { voterID := 0, firstName := "", lastName := "", voteHistory := [{ pollID := 5, voteDate := 0 }] } = some (.ok (), db1) ∧
      AddVoterPoll db1 1 { voterID := 0, firstName := "", lastName := "", voteHistory := [{ pollID := 5, voteDate := 7 }] } = some (.error "poll already exists in voter", db1) := by
  refine ⟨by decide, ?_⟩
  obtain ⟨db1, h1, _, h3⟩ :=
    (C7_addVoterPoll_duplicate
        [(redisKeyFromId votersNS 1, .voter { voterID := 1, firstName := "a", lastName := "b", voteHistory := [] })]).1
      1 { voterID := 1, firstName := "a", lastName := "b", voteHistory := [] }
      { voterID := 0, firstName := "", lastName := "", voteHistory := [{ pollID := 5, voteDate := 0 }] }
      { pollID := 5, voteDate := 0 } [] (by decide) (by decide) rfl (by decide)
  exact ⟨db1, h1, h3 { voterID := 0, firstName := "", lastName := "", voteHistory := [{ pollID := 5, voteDate := 7 }] } { pollID := 5, voteDate := 7 } [] rfl rfl⟩

end VotingApp
